import Mathlib

/-!
Shallow embedding of the configuration-management store of
`advanced-configuration-management` (TypeScript).  The repository contains
several near-duplicate variants of the same store:

* `EasyConfiguration` (src/src/index.ts): entries `{types, default, value}`,
  flag `addPropertiesToConfigurationAllowed`, no validator.
* `AdvancedConfigurationManagement` (src/unnamed/part_001): entries
  `{types, value, validator}`, strict setup-time descriptor validation
  (`SetupError`), validators with `EvalError` / `ValidationError`.
* the flag variant of `EasyConfiguration` (src/unnamed/part_002, second
  document): a plain value map with flags `addPropertiesToConfigAllowed`
  and `allowDifferentTypeOnConfig`.

JavaScript values are modelled by an inductive `JSValue` (numbers as `Int`;
function values appear only where the code stores callables, as explicit
Lean functions, because an inductive cannot contain its own function space).
`typeof` becomes `typeOf`, JS truthiness becomes `truthy`, a JS `Map`
becomes an insertion-ordered association list with `mapSet` / `mapGet`.
-/

/-- Model of a JavaScript runtime value (without function values; numbers as
integers). `vNull` and `vArr`/`vObj` all have `typeof` "object". -/
inductive JSValue where
  | vUndefined : JSValue
  | vNull : JSValue
  | vBool (b : Bool) : JSValue
  | vNum (n : Int) : JSValue
  | vStr (s : String) : JSValue
  | vArr (xs : List JSValue) : JSValue
  | vObj : JSValue

/-- The JavaScript `typeof` operator on modelled values. -/
def typeOf : JSValue → String
  | .vUndefined => "undefined"
  | .vNull => "object"
  | .vBool _ => "boolean"
  | .vNum _ => "number"
  | .vStr _ => "string"
  | .vArr _ => "object"
  | .vObj => "object"

/-- JavaScript truthiness of a modelled value. -/
def truthy : JSValue → Bool
  | .vUndefined => false
  | .vNull => false
  | .vBool b => b
  | .vNum n => n != 0
  | .vStr s => s != ""
  | .vArr _ => true
  | .vObj => true

mutual

/-- JavaScript string coercion, as used by template literals in error
messages. -/
def jsToString : JSValue → String
  | .vUndefined => "undefined"
  | .vNull => "null"
  | .vBool b => if b then "true" else "false"
  | .vNum n => toString n
  | .vStr s => s
  | .vArr xs => String.intercalate "," (jsToStringList xs)
  | .vObj => "[object Object]"

/-- Helper of `jsToString` for array elements. -/
def jsToStringList : List JSValue → List String
  | [] => []
  | x :: xs => jsToString x :: jsToStringList xs

end

/-- `Map.prototype.set`: replace in place when the key exists (keeping
insertion order), append otherwise. -/
def mapSet {α : Type} (m : List (String × α)) (k : String) (v : α) :
    List (String × α) :=
  match m with
  | [] => [(k, v)]
  | (k', v') :: rest =>
    if k' = k then (k, v) :: rest else (k', v') :: mapSet rest k v

/-- `Map.prototype.get` (and `has` via `Option.isSome`). -/
def mapGet {α : Type} (m : List (String × α)) (k : String) : Option α :=
  match m with
  | [] => none
  | (k', v') :: rest => if k' = k then some v' else mapGet rest k

/-- The error kinds the store operations raise (`ReferenceError`,
`TypeError`, `ValidationError`, `EvalError`). -/
inductive SetErr where
  | refErr (msg : String) : SetErr
  | typeErr (msg : String) : SetErr
  | validationErr (msg : String) : SetErr
  | evalErr (msg : String) : SetErr

/-- Message of the `ReferenceError` raised for a missing property. -/
def missingPropertyMsg (k : String) : String :=
  "Configuration property '" ++ k ++ "' does not exist."

/-- Message of the `TypeError` raised for a type mismatch against a list of
expected types (joined pipe-separated with `expectedTypes.join('|')`). -/
def invalidTypeMsg (k : String) (types : List String) : String :=
  "Invalid type for configuration property '" ++ k ++ "', expected '" ++
    String.intercalate "|" types ++ "'."

namespace EasyConfiguration

/-- A stored configuration entry of `EasyConfiguration`
(src/src/types/ConfigurationEntry.d.ts: `types`, `default`, `value`). -/
structure Entry where
  types : List String
  default : JSValue
  value : JSValue

/-- A descriptor supplied to the constructor: an object with a `value`
field, optional `types` (kept only when `Array.isArray` holds, which under
the declared `Array<string>` typing means: when present) and optional
`default` (presence-tested with `'default' in entry`). -/
structure Descriptor where
  value : JSValue
  types : Option (List String) := none
  default : Option JSValue := none

/-- One item of the construction specification: either a descriptor object
(an object carrying a `value` field) or a plain value. -/
inductive SpecItem where
  | desc (d : Descriptor) : SpecItem
  | raw (v : JSValue) : SpecItem

/-- The store: the external configuration map plus the
`addPropertiesToConfigurationAllowed` flag. -/
structure Store where
  entries : List (String × Entry)
  addAllowed : Bool

/-- Normalisation of one specification item into an entry
(src/src/index.ts constructor body). -/
def normalizeItem : SpecItem → Entry
  | .desc d =>
    { types :=
        match d.types with
        | some ts => ts
        | none => [typeOf d.value]
      default :=
        match d.default with
        | some dv => dv
        | none => d.value
      value := d.value }
  | .raw v => { types := [typeOf v], default := v, value := v }

/-- The `EasyConfiguration` constructor (src/src/index.ts lines 28-64):
seed one entry per specification key, record the flag. -/
def construct (spec : List (String × SpecItem)) (addAllowed : Bool) : Store :=
  { entries := spec.foldl (fun m p => mapSet m p.1 (normalizeItem p.2)) []
    addAllowed := addAllowed }

/-- Single-property `setConfig` (src/src/index.ts lines 95-126). -/
def setConfig1 (s : Store) (k : String) (v : JSValue) : Except SetErr Store :=
  match mapGet s.entries k with
  | none =>
    if !s.addAllowed then
      .error (.refErr (missingPropertyMsg k))
    else
      let fresh : Entry := { types := [typeOf v], default := v, value := v }
      .ok { s with entries := mapSet s.entries k fresh }
  | some cur =>
    if !(cur.types.contains (typeOf v)) then
      .error (.typeErr (invalidTypeMsg k cur.types))
    else
      .ok { s with entries := mapSet s.entries k ({ cur with value := v }) }

/-- Bulk `setConfig` (src/src/index.ts lines 86-93): apply the
single-property write to each pair in order; a raised error propagates
immediately, so later pairs are not attempted while earlier successful
writes remain in the map. The returned store is the state at the moment
the error propagates. -/
def setConfigMany (s : Store) :
    List (String × JSValue) → Store × Option SetErr
  | [] => (s, none)
  | (k, v) :: rest =>
    match setConfig1 s k v with
    | .ok s' => setConfigMany s' rest
    | .error e => (s, some e)

/-- Single-property `getConfig` (src/src/index.ts lines 157-163). -/
def getConfig1 (s : Store) (k : String) : Except SetErr JSValue :=
  match mapGet s.entries k with
  | none => .error (.refErr (missingPropertyMsg k))
  | some cur => .ok cur.value

end EasyConfiguration

namespace AdvancedConfigurationManagement

/-- A validator callable: may raise (modelled as `Except.error ()`) or
return a boolean (the declared return type `(value: unknown) => boolean`). -/
abbrev Validator : Type := JSValue → Except Unit Bool

/-- The runtime value found in a descriptor's `validator` field: either a
function value, or a plain (non-callable) value; an absent field reads as
`undefined`, i.e. `.val .vUndefined`. -/
inductive ValidatorField where
  | fn (f : Validator) : ValidatorField
  | val (v : JSValue) : ValidatorField

/-- Truthiness of the `validator` field (`if (validator)`); function values
are always truthy. -/
def ValidatorField.isTruthy : ValidatorField → Bool
  | .fn _ => true
  | .val v => truthy v

/-- A descriptor passed to the `AdvancedConfigurationManagement`
constructor: `{types?, value, validator?}` with runtime-checked fields
(an absent field reads as `undefined`). -/
structure Descriptor where
  value : JSValue
  types : JSValue := JSValue.vUndefined
  validator : ValidatorField := ValidatorField.val JSValue.vUndefined

/-- A stored entry: `{types, value, validator}` with `validator` set to
`undefined` when absent (src/unnamed/part_001 constructor). -/
structure Entry where
  types : List String
  value : JSValue
  validator : Option Validator

/-- The store of `AdvancedConfigurationManagement`: just the configuration
map (this variant has no behaviour flags). -/
abbrev Store : Type := List (String × Entry)

/-- The `SetupError` raised during construction; its message is built by
the `SetupError` class (src/src/ConfigurationEntry.d.ts). -/
structure SetupErr where
  message : String

/-- Message built by `new SetupError(property, message)` when both
arguments are non-empty strings. -/
def setupErrMsg (property : String) (message : String) : String :=
  "Invalid configuration entry: invalid value for '" ++ property ++ ", " ++
    message ++ "'."

/-- `Array.isArray(types) && types.every(t => typeof t === 'string')`:
extract the string elements when the value is an array of strings. -/
def stringArray? : JSValue → Option (List String)
  | .vArr xs => xs.foldr
      (fun x acc => match x, acc with
        | .vStr s, some ss => some (s :: ss)
        | _, _ => none)
      (some [])
  | _ => none

/-- The "Types check" block of the constructor (src/unnamed/part_001
lines 31-43): a truthy `types` must be an array of strings that includes
`typeof value`, otherwise the singleton of `typeof value` is inferred. -/
def checkTypes (d : Descriptor) : Except SetupErr (List String) :=
  if truthy d.types then
    match stringArray? d.types with
    | none =>
      .error
        { message :=
            setupErrMsg "types"
              "if specified, it must be an array of types (strings)" }
    | some ts =>
      if !(ts.contains (typeOf d.value)) then
        .error
          { message :=
              setupErrMsg "types" "value does not include typeof 'value'" }
      else
        .ok ts
  else
    .ok [typeOf d.value]

/-- The "Validator check" block of the constructor (src/unnamed/part_001
lines 46-57): a truthy `validator` must be a function; a falsy one is
recorded as `undefined`. -/
def checkValidator (d : Descriptor) : Except SetupErr (Option Validator) :=
  if d.validator.isTruthy then
    match d.validator with
    | .fn f => .ok (some f)
    | .val _ =>
      .error
        { message :=
            setupErrMsg "validator"
              "if specified, it must be a function returning a boolean" }
  else
    .ok none

/-- Normalise one descriptor into an entry, performing the setup-time
checks of the constructor (src/unnamed/part_001 lines 24-61) in their
source order: types check first, then validator check. -/
def mkEntry (d : Descriptor) : Except SetupErr Entry :=
  match checkTypes d with
  | .error e => .error e
  | .ok ts =>
    match checkValidator d with
    | .error e => .error e
    | .ok ov => .ok { types := ts, value := d.value, validator := ov }

/-- Constructor loop (src/unnamed/part_001 lines 23-62): process the
specification entries in order, aborting at the first `SetupError`. -/
def constructAux (acc : Store) :
    List (String × Descriptor) → Except SetupErr Store
  | [] => .ok acc
  | (k, d) :: rest =>
    match mkEntry d with
    | .error e => .error e
    | .ok entry => constructAux (mapSet acc k entry) rest

/-- The `AdvancedConfigurationManagement` constructor. -/
def construct (spec : List (String × Descriptor)) : Except SetupErr Store :=
  constructAux [] spec

/-- The `try { validationSuccess = validator(value) } catch { throw new
EvalError(...) }` block of `setConfig` together with the "no validator
means success" default: compute `validationSuccess`, converting a raise
inside the validator into the `EvalError`-kind error. -/
def runValidator (ov : Option Validator) (v : JSValue) : Except SetErr Bool :=
  match ov with
  | some f =>
    match f v with
    | .error _ =>
      .error
        (.evalErr
          ("An error occured while trying to validate the value '" ++
            jsToString v ++ "'."))
    | .ok b => .ok b
  | none => .ok true

/-- Single-property `setConfig` (src/unnamed/part_001 lines 93-133):
existence check, type check, validator invocation (raising inside the
validator becomes `EvalError`, a false result becomes `ValidationError`),
then the in-place value update. -/
def setConfig1 (s : Store) (k : String) (v : JSValue) : Except SetErr Store :=
  match mapGet s k with
  | none => .error (.refErr (missingPropertyMsg k))
  | some cur =>
    if !(cur.types.contains (typeOf v)) then
      .error (.typeErr (invalidTypeMsg k cur.types))
    else
      match runValidator cur.validator v with
      | .error e => .error e
      | .ok validationSuccess =>
        if !validationSuccess then
          .error
            (.validationErr
              ("Validation failed for the value '" ++ jsToString v ++ "'."))
        else
          .ok (mapSet s k { cur with value := v })

/-- Single-property `getConfig` (src/unnamed/part_001 lines 150-172). -/
def getConfig1 (s : Store) (k : String) : Except SetErr JSValue :=
  match mapGet s k with
  | none => .error (.refErr (missingPropertyMsg k))
  | some cur => .ok cur.value

end AdvancedConfigurationManagement

namespace FlagConfiguration

/-- The flag variant of `EasyConfiguration` (src/unnamed/part_002, second
document): a plain value map plus the two behaviour flags of
`IInnerConfiguration`. -/
structure Store where
  config : List (String × JSValue)
  addPropertiesToConfigAllowed : Bool
  allowDifferentTypeOnConfig : Bool

/-- Its constructor: copy every key/value pair of the configuration object
into the map and record the flags. -/
def construct (spec : List (String × JSValue))
    (addAllowed allowDiff : Bool) : Store :=
  { config := spec.foldl (fun m p => mapSet m p.1 p.2) []
    addPropertiesToConfigAllowed := addAllowed
    allowDifferentTypeOnConfig := allowDiff }

/-- Single-property `setConfig` of the flag variant (src/unnamed/part_002
lines 193-229): unknown keys fail unless `addPropertiesToConfigAllowed`;
known keys are type-checked against `typeof` of the current value unless
`allowDifferentTypeOnConfig`; in all non-raising paths the value is then
stored. -/
def setConfig1 (s : Store) (k : String) (v : JSValue) : Except SetErr Store :=
  match
    (match mapGet s.config k with
      | none =>
        if !s.addPropertiesToConfigAllowed then
          Except.error (SetErr.refErr (missingPropertyMsg k))
        else
          Except.ok ()
      | some cur =>
        let expectedType := typeOf cur
        if typeOf v ≠ expectedType ∧ !s.allowDifferentTypeOnConfig then
          Except.error (SetErr.typeErr (invalidTypeMsg k [expectedType]))
        else
          Except.ok () : Except SetErr Unit)
  with
  | .error e => .error e
  | .ok _ => .ok { s with config := mapSet s.config k v }

/-- Single-property `getConfig` of the flag variant. -/
def getConfig1 (s : Store) (k : String) : Except SetErr JSValue :=
  match mapGet s.config k with
  | none => .error (.refErr (missingPropertyMsg k))
  | some cur => .ok cur

end FlagConfiguration

/-!
The whole-configuration snapshot of the zero-argument `getConfig` is built
with `Object.entries(...).reduce((obj, [k, {value}]) =>
Object.defineProperty(obj, k, { value }), {})`.  We model a JavaScript
object as an ordered list of named property descriptors so that the
attributes `writable` / `enumerable` / `configurable` (all defaulting to
`false` under a bare `{ value }` descriptor) are visible.
-/

/-- A JavaScript property descriptor. -/
structure PropDescriptor where
  value : JSValue
  writable : Bool
  enumerable : Bool
  configurable : Bool

/-- A JavaScript object: an insertion-ordered list of named property
descriptors. -/
abbrev JSObject : Type := List (String × PropDescriptor)

/-- `Object.defineProperty(obj, k, { value })`: a bare data descriptor, so
`writable`, `enumerable` and `configurable` all default to `false`. -/
def definePropertyBare (o : JSObject) (k : String) (v : JSValue) : JSObject :=
  mapSet o k
    { value := v, writable := false, enumerable := false, configurable := false }

/-- Ordinary assignment `o[k] = v` in non-strict code on an extensible
object: an existing non-writable property silently rejects the write; an
existing writable property is updated; a missing property is created with
all attributes `true`. -/
def assignProp (o : JSObject) (k : String) (v : JSValue) : JSObject :=
  match mapGet o k with
  | some d =>
    if d.writable then mapSet o k { d with value := v } else o
  | none =>
    mapSet o k
      { value := v, writable := true, enumerable := true, configurable := true }

/-- `Object.keys(o)`: the enumerable own property names. -/
def objectKeys (o : JSObject) : List String :=
  (o.filter (fun p => p.2.enumerable)).map Prod.fst

/-- Direct named read `o[k]` of an own property (get is unaffected by the
`enumerable` / `writable` attributes). -/
def getProp (o : JSObject) (k : String) : Option JSValue :=
  (mapGet o k).map PropDescriptor.value

/-- Zero-argument `getConfig` of `EasyConfiguration` (src/src/index.ts
lines 147-155): reduce the entries into a freshly created object, defining
each property with a bare `{ value }` descriptor. -/
def EasyConfiguration.getConfigAll (s : EasyConfiguration.Store) : JSObject :=
  s.entries.foldl (fun obj p => definePropertyBare obj p.1 p.2.value) []

/-- Zero-argument `getConfig` of `AdvancedConfigurationManagement`
(src/unnamed/part_001 lines 155-162), built the same way. -/
def AdvancedConfigurationManagement.getConfigAll
    (s : AdvancedConfigurationManagement.Store) : JSObject :=
  s.foldl (fun obj p => definePropertyBare obj p.1 p.2.value) []

/-- Keys of an association list. -/
abbrev mapKeys {α : Type} (m : List (String × α)) : List String :=
  m.map Prod.fst

/-- No duplicate keys: the shape every `Map`-backed store actually has. -/
abbrev KeysNodup {α : Type} (m : List (String × α)) : Prop :=
  (mapKeys m).Nodup

section MapLemmas

variable {α : Type}

theorem mapGet_mapSet_self (m : List (String × α)) (k : String) (v : α) :
    mapGet (mapSet m k v) k = some v := by
  induction m with
  | nil => simp [mapSet, mapGet]
  | cons p rest ih =>
    by_cases h : p.1 = k
    · simp [mapSet, mapGet, h]
    · simp [mapSet, mapGet, h, ih]

theorem mapGet_mapSet_ne (m : List (String × α)) (k k' : String) (v : α)
    (h : k' ≠ k) : mapGet (mapSet m k v) k' = mapGet m k' := by
  have hkk : ¬(k = k') := fun hh => h hh.symm
  induction m with
  | nil => simp [mapSet, mapGet, hkk]
  | cons p rest ih =>
    by_cases hp : p.1 = k
    · subst hp
      simp only [mapSet, if_pos rfl]
      simp [mapGet, hkk]
    · simp only [mapSet, if_neg hp]
      by_cases hp' : p.1 = k'
      · simp [mapGet, hp']
      · simp [mapGet, hp', ih]

theorem mem_mapSet {m : List (String × α)} {k : String} {v : α}
    {p : String × α} (h : p ∈ mapSet m k v) : p = (k, v) ∨ p ∈ m := by
  induction m with
  | nil => simpa [mapSet] using h
  | cons q rest ih =>
    by_cases hq : q.1 = k
    · simp only [mapSet, if_pos hq] at h
      rcases List.mem_cons.mp h with h1 | h1
      · exact Or.inl h1
      · exact Or.inr (List.mem_cons_of_mem _ h1)
    · simp only [mapSet, if_neg hq] at h
      rcases List.mem_cons.mp h with h1 | h1
      · exact Or.inr (h1 ▸ List.mem_cons_self _ _)
      · rcases ih h1 with h2 | h2
        · exact Or.inl h2
        · exact Or.inr (List.mem_cons_of_mem _ h2)

theorem mapKeys_mapSet_of_mem {m : List (String × α)} {k : String} (v : α)
    (h : (mapGet m k).isSome) : mapKeys (mapSet m k v) = mapKeys m := by
  induction m with
  | nil => simp [mapGet] at h
  | cons p rest ih =>
    by_cases hp : p.1 = k
    · subst hp
      simp [mapSet, mapKeys]
    · simp only [mapGet, if_neg hp] at h
      simp [mapSet, mapKeys, hp] at ih ⊢
      exact ih h

theorem mapGet_isSome_iff_mem_keys (m : List (String × α)) (k : String) :
    (mapGet m k).isSome ↔ k ∈ mapKeys m := by
  induction m with
  | nil => simp [mapGet, mapKeys]
  | cons p rest ih =>
    by_cases hp : p.1 = k
    · simp [mapGet, mapKeys, hp]
    · have hp' : ¬(k = p.1) := fun hh => hp hh.symm
      simp [mapGet, mapKeys, hp, ih, hp']

theorem mapGet_eq_none_of_not_mem_keys {m : List (String × α)} {k : String}
    (h : k ∉ mapKeys m) : mapGet m k = none := by
  cases hm : mapGet m k with
  | none => rfl
  | some v =>
    exact absurd ((mapGet_isSome_iff_mem_keys m k).mp (by simp [hm])) h

end MapLemmas

section SnapshotLemmas

variable {β : Type}

/-- Any descriptor reachable in a fold of `definePropertyBare` either is a
bare descriptor or comes from the initial object. -/
theorem mem_defineFold (f : β → JSValue) (l : List (String × β))
    (obj : JSObject) {p : String × PropDescriptor}
    (h : p ∈ l.foldl (fun o q => definePropertyBare o q.1 (f q.2)) obj) :
    (p.2.writable = false ∧ p.2.enumerable = false ∧
      p.2.configurable = false) ∨ p ∈ obj := by
  induction l generalizing obj with
  | nil => exact Or.inr h
  | cons q rest ih =>
    rcases ih (definePropertyBare obj q.1 (f q.2)) h with h1 | h1
    · exact Or.inl h1
    · rcases mem_mapSet h1 with h2 | h2
      · refine Or.inl ?_
        rw [h2]
        exact ⟨rfl, rfl, rfl⟩
      · exact Or.inr h2

/-- Keys absent from the folded pairs pass through the fold untouched. -/
theorem defineFold_get_not_mem (f : β → JSValue) (l : List (String × β))
    (obj : JSObject) (k : String) (h : k ∉ mapKeys l) :
    mapGet (l.foldl (fun o q => definePropertyBare o q.1 (f q.2)) obj) k =
      mapGet obj k := by
  induction l generalizing obj with
  | nil => rfl
  | cons q rest ih =>
    simp only [mapKeys, List.map_cons, List.mem_cons] at h
    push_neg at h
    rw [List.foldl_cons, ih _ (by simpa [mapKeys] using h.2)]
    exact mapGet_mapSet_ne _ _ _ _ h.1

/-- With unique keys, reading the folded snapshot agrees with reading the
source association list. -/
theorem defineFold_get (f : β → JSValue) (l : List (String × β))
    (obj : JSObject) (k : String) (hn : KeysNodup l) :
    mapGet (l.foldl (fun o q => definePropertyBare o q.1 (f q.2)) obj) k =
      match mapGet l k with
      | some b => some { value := f b, writable := false, enumerable := false,
                         configurable := false }
      | none => mapGet obj k := by
  induction l generalizing obj with
  | nil => rfl
  | cons q rest ih =>
    have hn' : q.1 ∉ mapKeys rest ∧ KeysNodup rest := by
      simpa [KeysNodup, mapKeys, List.nodup_cons] using hn
    rw [List.foldl_cons]
    by_cases hq : q.1 = k
    · subst hq
      rw [defineFold_get_not_mem f rest _ _ hn'.1]
      simp [mapGet, definePropertyBare, mapGet_mapSet_self]
    · have hget : mapGet (q :: rest) k = mapGet rest k := by
        simp [mapGet, hq]
      rw [ih _ hn'.2, hget]
      cases hrest : mapGet rest k with
      | some b => rfl
      | none =>
        show mapGet (definePropertyBare obj q.1 (f q.2)) k = mapGet obj k
        simp only [definePropertyBare]
        exact mapGet_mapSet_ne _ _ _ _ (fun hh => hq hh.symm)

end SnapshotLemmas

/-- An operation performed on an `EasyConfiguration` store after
construction: a single-property write, a bulk write, or a read (reads do
not change the map, as `getConfig` only looks entries up). -/
inductive EasyOp where
  | set1 (k : String) (v : JSValue) : EasyOp
  | setMany (pairs : List (String × JSValue)) : EasyOp
  | get (k : Option String) : EasyOp

/-- The store state after one operation: a raising `setConfig` leaves the
map as it was (all throws happen before any mutation). -/
def EasyConfiguration.applyOp (s : EasyConfiguration.Store) :
    EasyOp → EasyConfiguration.Store
  | .set1 k v =>
    match EasyConfiguration.setConfig1 s k v with
    | .ok s' => s'
    | .error _ => s
  | .setMany ps => (EasyConfiguration.setConfigMany s ps).1
  | .get _ => s

/-- The store state after a sequence of operations. -/
def EasyConfiguration.runOps (s : EasyConfiguration.Store) :
    List EasyOp → EasyConfiguration.Store
  | [] => s
  | op :: ops => EasyConfiguration.runOps (EasyConfiguration.applyOp s op) ops

/-- The invariant claimed by the spec: every entry's `types` is
non-empty. -/
def EasyConfiguration.typesNonEmpty (s : EasyConfiguration.Store) : Prop :=
  ∀ p ∈ s.entries, p.2.types ≠ []

/-- The same invariant for an `AdvancedConfigurationManagement` store. -/
def AdvancedConfigurationManagement.typesNonEmpty
    (s : AdvancedConfigurationManagement.Store) : Prop :=
  ∀ p ∈ s, p.2.types ≠ []

/-- A construction specification in which every explicitly supplied
`types` array is non-empty (the proviso under which the non-emptiness
invariant actually holds for `EasyConfiguration`). -/
def EasyConfiguration.explicitTypesNonEmpty
    (spec : List (String × EasyConfiguration.SpecItem)) : Prop :=
  ∀ p ∈ spec, ∀ d ts, p.2 = EasyConfiguration.SpecItem.desc d →
    d.types = some ts → ts ≠ []

/-- Whether the `validator` field of a descriptor holds a callable. -/
def AdvancedConfigurationManagement.ValidatorField.isCallable :
    AdvancedConfigurationManagement.ValidatorField → Bool
  | .fn _ => true
  | .val _ => false

/-- A descriptor the `AdvancedConfigurationManagement` constructor
rejects: a truthy `types` field that is not an array of strings or does
not contain `typeof value`, or a truthy non-callable `validator` field. -/
def AdvancedConfigurationManagement.descriptorRejected
    (d : AdvancedConfigurationManagement.Descriptor) : Prop :=
  (truthy d.types = true ∧
    (AdvancedConfigurationManagement.stringArray? d.types = none ∨
      ∃ ts, AdvancedConfigurationManagement.stringArray? d.types = some ts ∧
        ts.contains (typeOf d.value) = false)) ∨
  (d.validator.isTruthy = true ∧ d.validator.isCallable = false)

/-- A descriptor that is malformed in the sense of the claim's wording:
its `types` field is PRESENT (not merely truthy) but not an array of
strings, or an array not containing `typeof value`, or its `validator`
field is present but not callable. -/
def AdvancedConfigurationManagement.descriptorMalformedClaim
    (d : AdvancedConfigurationManagement.Descriptor) : Prop :=
  (d.types ≠ JSValue.vUndefined ∧
    (AdvancedConfigurationManagement.stringArray? d.types = none ∨
      ∃ ts, AdvancedConfigurationManagement.stringArray? d.types = some ts ∧
        ts.contains (typeOf d.value) = false)) ∨
  ((match d.validator with
      | .val JSValue.vUndefined => False
      | _ => True) ∧
    d.validator.isCallable = false)

/-- Concrete store of spec section 8, Scenario A: seeded with
`{a: false}`, unknown-property admission disabled. -/
def exStoreA : EasyConfiguration.Store :=
  EasyConfiguration.construct
    [("a", EasyConfiguration.SpecItem.raw (JSValue.vBool false))] false

/-- The Scenario A store after `setConfig('a', true)`. -/
def exStoreA' : EasyConfiguration.Store :=
  { entries :=
      [("a", { types := ["boolean"], default := JSValue.vBool false,
               value := JSValue.vBool true })]
    addAllowed := false }

/-- A store with unknown-property admission enabled (Scenario C). -/
def exStoreC : EasyConfiguration.Store :=
  EasyConfiguration.construct [] true

/-- A flag-variant store with `allowDifferentTypeOnConfig` enabled. -/
def exFlagStore : FlagConfiguration.Store :=
  FlagConfiguration.construct [("a", JSValue.vNum 1)] false true

/-- The length-positive validator of the README example
(`(value) => value.length > 0` on strings). -/
def exValidator : AdvancedConfigurationManagement.Validator :=
  fun v =>
    match v with
    | .vStr s => .ok (decide (0 < s.length))
    | _ => .error ()

/-- A concrete `AdvancedConfigurationManagement` store of spec section 8,
Scenario D: `{foo: {types: ['string'], value: 'bar', validator}}`. -/
def exAcmStore : AdvancedConfigurationManagement.Store :=
  [("foo", { types := ["string"], value := JSValue.vStr "bar",
             validator := some exValidator })]

/-- An `AdvancedConfigurationManagement` store whose only entry has no
validator. -/
def exAcmStoreNoVal : AdvancedConfigurationManagement.Store :=
  [("foo", { types := ["string"], value := JSValue.vStr "bar",
             validator := none })]

/-- Construction input for the C7 counterexample: an explicitly supplied
EMPTY `types` array (`{a: {value: 1, types: []}}`). -/
def cexEmptyTypesSpec : List (String × EasyConfiguration.SpecItem) :=
  [("a", EasyConfiguration.SpecItem.desc
    { value := JSValue.vNum 1, types := some [] })]

/-- The descriptor of the C8 counterexample: a `types` field that is
present (the value `false`) but falsy, hence not an array of strings. -/
def cexDescC8 : AdvancedConfigurationManagement.Descriptor :=
  { value := JSValue.vNum 1, types := JSValue.vBool false }

/-- Equation lemma: `setConfig1` on a missing key. -/
theorem easy_setConfig1_unknown (s : EasyConfiguration.Store)
    (k : String) (v : JSValue) (h : mapGet s.entries k = none) :
    EasyConfiguration.setConfig1 s k v =
      if !s.addAllowed then
        .error (.refErr (missingPropertyMsg k))
      else
        .ok { s with entries := mapSet s.entries k ({ types := [typeOf v], default := v, value := v } : EasyConfiguration.Entry) } := by
  unfold EasyConfiguration.setConfig1
  rw [h]

/-- Equation lemma: `setConfig1` on a present key. -/
theorem easy_setConfig1_known (s : EasyConfiguration.Store)
    (k : String) (v : JSValue) (cur : EasyConfiguration.Entry)
    (h : mapGet s.entries k = some cur) :
    EasyConfiguration.setConfig1 s k v =
      if !(cur.types.contains (typeOf v)) then
        .error (.typeErr (invalidTypeMsg k cur.types))
      else
        .ok { s with entries := mapSet s.entries k ({ cur with value := v }) } := by
  unfold EasyConfiguration.setConfig1
  rw [h]

/-- C1: for every store and property `n` present in it, if
`setConfig(n, v)` succeeds then a subsequent `getConfig(n)` returns
exactly `v`. -/
theorem C1_setConfig_getConfig_roundTrip
    (s : EasyConfiguration.Store) (n : String) (v : JSValue)
    (s' : EasyConfiguration.Store)
    (hk : (mapGet s.entries n).isSome)
    (hset : EasyConfiguration.setConfig1 s n v = .ok s') :
    EasyConfiguration.getConfig1 s' n = .ok v := by
  cases hmg : mapGet s.entries n with
  | none => rw [hmg] at hk; simp at hk
  | some cur =>
    rw [easy_setConfig1_known s n v cur hmg] at hset
    cases hc : cur.types.contains (typeOf v) with
    | false => rw [hc] at hset; simp at hset
    | true =>
      rw [hc] at hset
      simp only [Bool.not_true, Bool.false_eq_true, if_false,
        Except.ok.injEq] at hset
      subst hset
      unfold EasyConfiguration.getConfig1
      rw [mapGet_mapSet_self]

/-- Witness for C1 at Scenario A: writing `true` to the boolean property
`a` succeeds and reads back as `true`. -/
theorem C1_witness :
    (mapGet exStoreA.entries "a").isSome = true ∧
    EasyConfiguration.setConfig1 exStoreA "a" (JSValue.vBool true) =
      .ok exStoreA' ∧
    EasyConfiguration.getConfig1 exStoreA' "a" = .ok (JSValue.vBool true) :=
  ⟨rfl, rfl,
    C1_setConfig_getConfig_roundTrip exStoreA "a" (JSValue.vBool true)
      exStoreA' (by rfl) (by rfl)⟩

/-- C4: for a property name `n` absent from the store, `getConfig(n)`
raises a ReferenceError-kind error; `setConfig(n, v)` raises a
ReferenceError-kind error when unknown-property admission is disabled, and
when enabled creates an entry whose `types` is the singleton of
`typeof v`, whose `default` is `v` and whose `value` is `v`, with no
further checks. -/
theorem C4_unknown_property
    (s : EasyConfiguration.Store) (n : String) (v : JSValue)
    (hk : mapGet s.entries n = none) :
    EasyConfiguration.getConfig1 s n =
      .error (.refErr (missingPropertyMsg n)) ∧
    (s.addAllowed = false →
      EasyConfiguration.setConfig1 s n v =
        .error (.refErr (missingPropertyMsg n))) ∧
    (s.addAllowed = true →
      ∃ s', EasyConfiguration.setConfig1 s n v = .ok s' ∧
        mapGet s'.entries n =
          some { types := [typeOf v], default := v, value := v }) := by
  refine ⟨?_, ?_, ?_⟩
  · unfold EasyConfiguration.getConfig1
    rw [hk]
  · intro ha
    rw [easy_setConfig1_unknown s n v hk]
    simp [ha]
  · intro ha
    rw [easy_setConfig1_unknown s n v hk]
    simp only [ha, Bool.not_true, Bool.false_eq_true, if_false]
    exact ⟨_, rfl, mapGet_mapSet_self _ _ _⟩

/-- Witness for C4: in Scenario A the unknown key `foo` is rejected on
read and write, and with admission enabled (Scenario C) writing `x = 5`
creates the inferred entry. -/
theorem C4_witness :
    (mapGet exStoreA.entries "foo" = none ∧
      EasyConfiguration.getConfig1 exStoreA "foo" =
        .error (.refErr (missingPropertyMsg "foo")) ∧
      EasyConfiguration.setConfig1 exStoreA "foo" (JSValue.vBool true) =
        .error (.refErr (missingPropertyMsg "foo"))) ∧
    (mapGet exStoreC.entries "x" = none ∧
      ∃ s', EasyConfiguration.setConfig1 exStoreC "x" (JSValue.vNum 5) =
          .ok s' ∧
        mapGet s'.entries "x" =
          some { types := ["number"], default := JSValue.vNum 5,
                 value := JSValue.vNum 5 }) := by
  constructor
  · exact ⟨rfl,
      (C4_unknown_property exStoreA "foo" (JSValue.vBool true) rfl).1,
      (C4_unknown_property exStoreA "foo" (JSValue.vBool true) rfl).2.1 rfl⟩
  · exact ⟨rfl,
      (C4_unknown_property exStoreC "x" (JSValue.vNum 5) rfl).2.2 rfl⟩

/-- Equation lemma: `AdvancedConfigurationManagement.setConfig1` on a
missing key. -/
theorem acm_setConfig1_unknown
    (s : AdvancedConfigurationManagement.Store) (k : String) (v : JSValue)
    (h : mapGet s k = none) :
    AdvancedConfigurationManagement.setConfig1 s k v =
      .error (.refErr (missingPropertyMsg k)) := by
  unfold AdvancedConfigurationManagement.setConfig1
  rw [h]

/-- Equation lemma: `AdvancedConfigurationManagement.setConfig1` on a
present key. -/
theorem acm_setConfig1_known
    (s : AdvancedConfigurationManagement.Store) (k : String) (v : JSValue)
    (cur : AdvancedConfigurationManagement.Entry) (h : mapGet s k = some cur) :
    AdvancedConfigurationManagement.setConfig1 s k v =
      if !(cur.types.contains (typeOf v)) then
        .error (.typeErr (invalidTypeMsg k cur.types))
      else
        match AdvancedConfigurationManagement.runValidator cur.validator v with
        | .error e => .error e
        | .ok validationSuccess =>
          if !validationSuccess then
            .error
              (.validationErr
                ("Validation failed for the value '" ++ jsToString v ++ "'."))
          else
            .ok (mapSet s k { cur with value := v }) := by
  unfold AdvancedConfigurationManagement.setConfig1
  rw [h]

/-- C6: a successful single-property write replaces only the entry's
`value` field, leaving `types`, `default` and `validator` untouched, and
leaves every other entry (and the behaviour flag) unchanged — stated for
`EasyConfiguration` (whose entries carry `types`/`default`) and for
`AdvancedConfigurationManagement` (whose entries carry
`types`/`validator`). -/
theorem C6_success_frame :
    (∀ (s : EasyConfiguration.Store) (n : String)
       (cur : EasyConfiguration.Entry) (v : JSValue)
       (s' : EasyConfiguration.Store),
      mapGet s.entries n = some cur →
      EasyConfiguration.setConfig1 s n v = .ok s' →
      (∃ e', mapGet s'.entries n = some e' ∧ e'.value = v ∧
        e'.types = cur.types ∧ e'.default = cur.default) ∧
      (∀ k', k' ≠ n → mapGet s'.entries k' = mapGet s.entries k') ∧
      s'.addAllowed = s.addAllowed) ∧
    (∀ (s : AdvancedConfigurationManagement.Store) (n : String)
       (cur : AdvancedConfigurationManagement.Entry) (v : JSValue)
       (s' : AdvancedConfigurationManagement.Store),
      mapGet s n = some cur →
      AdvancedConfigurationManagement.setConfig1 s n v = .ok s' →
      (∃ e', mapGet s' n = some e' ∧ e'.value = v ∧
        e'.types = cur.types ∧ e'.validator = cur.validator) ∧
      (∀ k', k' ≠ n → mapGet s' k' = mapGet s k')) := by
  constructor
  · intro s n cur v s' hmg hset
    rw [easy_setConfig1_known s n v cur hmg] at hset
    cases hc : cur.types.contains (typeOf v) with
    | false => rw [hc] at hset; simp at hset
    | true =>
      rw [hc] at hset
      simp only [Bool.not_true, Bool.false_eq_true, if_false,
        Except.ok.injEq] at hset
      subst hset
      refine ⟨⟨{ cur with value := v }, mapGet_mapSet_self _ _ _,
        rfl, rfl, rfl⟩, ?_, rfl⟩
      intro k' hk'
      exact mapGet_mapSet_ne _ _ _ _ hk'
  · intro s n cur v s' hmg hset
    rw [acm_setConfig1_known s n v cur hmg]
      at hset
    cases hc : cur.types.contains (typeOf v) with
    | false => rw [hc] at hset; simp at hset
    | true =>
      rw [hc] at hset
      simp only [Bool.not_true, Bool.false_eq_true, if_false] at hset
      cases hrv : AdvancedConfigurationManagement.runValidator
          cur.validator v with
      | error e => rw [hrv] at hset; simp at hset
      | ok b =>
        rw [hrv] at hset
        cases b with
        | false => simp at hset
        | true =>
          simp only [Bool.not_true, Bool.false_eq_true, if_false,
            Except.ok.injEq] at hset
          subst hset
          refine ⟨⟨{ cur with value := v }, mapGet_mapSet_self _ _ _,
            rfl, rfl, rfl⟩, ?_⟩
          intro k' hk'
          exact mapGet_mapSet_ne _ _ _ _ hk'

/-- Witness for C6: Scenario A's successful write keeps `types` and
`default`, and Scenario D's successful validated write keeps `types` and
the validator. -/
theorem C6_witness :
    (mapGet exStoreA.entries "a" =
        some { types := ["boolean"], default := JSValue.vBool false,
               value := JSValue.vBool false } ∧
      EasyConfiguration.setConfig1 exStoreA "a" (JSValue.vBool true) =
        .ok exStoreA' ∧
      (∃ e', mapGet exStoreA'.entries "a" = some e' ∧
        e'.value = JSValue.vBool true ∧ e'.types = ["boolean"] ∧
        e'.default = JSValue.vBool false)) ∧
    (∃ e', mapGet
        (mapSet exAcmStore "foo"
          { types := ["string"], value := JSValue.vStr "baz",
            validator := some exValidator }) "foo" = some e' ∧
      e'.value = JSValue.vStr "baz" ∧ e'.types = ["string"] ∧
      e'.validator = some exValidator) := by
  constructor
  · refine ⟨rfl, rfl, ?_⟩
    have h := (C6_success_frame.1 exStoreA "a"
      { types := ["boolean"], default := JSValue.vBool false,
        value := JSValue.vBool false }
      (JSValue.vBool true) exStoreA' rfl rfl).1
    simpa using h
  · have h := (C6_success_frame.2 exAcmStore "foo"
      { types := ["string"], value := JSValue.vStr "bar",
        validator := some exValidator }
      (JSValue.vStr "baz") (mapSet exAcmStore "foo"
        { types := ["string"], value := JSValue.vStr "baz",
          validator := some exValidator }) rfl (by rfl)).1
    simpa using h

/-- Equation lemma: flag-variant `setConfig1` on a present key. -/
theorem flag_setConfig1_known
    (t : FlagConfiguration.Store) (k : String) (v cur : JSValue)
    (h : mapGet t.config k = some cur) :
    FlagConfiguration.setConfig1 t k v =
      if typeOf v ≠ typeOf cur ∧ !t.allowDifferentTypeOnConfig then
        .error (.typeErr (invalidTypeMsg k [typeOf cur]))
      else
        .ok { t with config := mapSet t.config k v } := by
  unfold FlagConfiguration.setConfig1
  rw [h]
  show (match
      (if typeOf v ≠ typeOf cur ∧ (!t.allowDifferentTypeOnConfig) = true then
        (.error (.typeErr (invalidTypeMsg k [typeOf cur])) :
          Except SetErr Unit)
      else .ok ()) with
    | .error e => (.error e : Except SetErr FlagConfiguration.Store)
    | .ok _ => .ok { t with config := mapSet t.config k v }) = _
  by_cases hc : typeOf v ≠ typeOf cur ∧ (!t.allowDifferentTypeOnConfig) = true
  · rw [if_pos hc, if_pos hc]
  · rw [if_neg hc, if_neg hc]

/-- C2: for a known property with accepted kinds `T`, the write of `v`
raises a `TypeError`-kind error iff `typeof v ∉ T` (with the expected
kinds pipe-joined in the message) in the variant without type-mismatch
admission; in the flag variant, with `allowDifferentTypeOnConfig` enabled
the type check is skipped and the value is stored regardless. -/
theorem C2_type_check :
    (∀ (s : EasyConfiguration.Store) (n : String)
       (cur : EasyConfiguration.Entry) (v : JSValue),
      mapGet s.entries n = some cur →
      ((∃ m, EasyConfiguration.setConfig1 s n v = .error (.typeErr m)) ↔
        cur.types.contains (typeOf v) = false) ∧
      (cur.types.contains (typeOf v) = false →
        EasyConfiguration.setConfig1 s n v =
          .error (.typeErr (invalidTypeMsg n cur.types)))) ∧
    (∀ (t : FlagConfiguration.Store) (n : String) (cur v : JSValue),
      t.allowDifferentTypeOnConfig = true →
      mapGet t.config n = some cur →
      ∃ t', FlagConfiguration.setConfig1 t n v = .ok t' ∧
        mapGet t'.config n = some v) := by
  constructor
  · intro s n cur v hmg
    rw [easy_setConfig1_known s n v cur hmg]
    cases hc : cur.types.contains (typeOf v) with
    | false => simp
    | true => simp
  · intro t n cur v hflag hmg
    rw [flag_setConfig1_known t n v cur hmg]
    rw [if_neg (by simp [hflag])]
    exact ⟨_, rfl, mapGet_mapSet_self _ _ _⟩

/-- Witness for C2: Scenario A's boolean property rejects a numeric write
with the pipe-joined message, and the flag-variant store with mismatch
admission enabled stores a string over a number. -/
theorem C2_witness :
    (mapGet exStoreA.entries "a" =
        some { types := ["boolean"], default := JSValue.vBool false,
               value := JSValue.vBool false } ∧
      EasyConfiguration.setConfig1 exStoreA "a" (JSValue.vNum 2) =
        .error (.typeErr
          "Invalid type for configuration property 'a', expected 'boolean'.") ∧
      (∃ m, EasyConfiguration.setConfig1 exStoreA "a" (JSValue.vNum 2) =
        .error (.typeErr m))) ∧
    (exFlagStore.allowDifferentTypeOnConfig = true ∧
      mapGet exFlagStore.config "a" = some (JSValue.vNum 1) ∧
      ∃ t', FlagConfiguration.setConfig1 exFlagStore "a"
          (JSValue.vStr "s") = .ok t' ∧
        mapGet t'.config "a" = some (JSValue.vStr "s")) := by
  constructor
  · have h := (C2_type_check.1 exStoreA "a"
      { types := ["boolean"], default := JSValue.vBool false,
        value := JSValue.vBool false } (JSValue.vNum 2) rfl)
    exact ⟨rfl, h.2 (by decide), h.1.mpr (by decide)⟩
  · exact ⟨rfl, rfl,
      C2_type_check.2 exFlagStore "a" (JSValue.vNum 1) (JSValue.vStr "s")
        rfl rfl⟩

/-- C5: a failing single-property write leaves the store exactly in its
prior state, and a bulk write applies its pairs sequentially: the first
failing pair propagates its error immediately, aborting the remaining
pairs, while writes already applied to earlier pairs remain in effect. -/
theorem C5_bulk_propagation :
    (∀ (s : EasyConfiguration.Store) (k : String) (v : JSValue) (e : SetErr),
      EasyConfiguration.setConfig1 s k v = .error e →
      EasyConfiguration.setConfigMany s [(k, v)] = (s, some e)) ∧
    (∀ (pre : List (String × JSValue)) (s s₁ : EasyConfiguration.Store)
       (k : String) (v : JSValue) (post : List (String × JSValue))
       (e : SetErr),
      EasyConfiguration.setConfigMany s pre = (s₁, none) →
      EasyConfiguration.setConfig1 s₁ k v = .error e →
      EasyConfiguration.setConfigMany s (pre ++ (k, v) :: post) =
        (s₁, some e)) := by
  constructor
  · intro s k v e herr
    unfold EasyConfiguration.setConfigMany
    rw [herr]
  · intro pre
    induction pre with
    | nil =>
      intro s s₁ k v post e hpre herr
      unfold EasyConfiguration.setConfigMany at hpre
      have hs : s = s₁ := congrArg Prod.fst hpre
      subst hs
      show EasyConfiguration.setConfigMany s ((k, v) :: post) = (s, some e)
      unfold EasyConfiguration.setConfigMany
      rw [herr]
    | cons p pre' ih =>
      intro s s₁ k v post e hpre herr
      obtain ⟨pk, pv⟩ := p
      unfold EasyConfiguration.setConfigMany at hpre ⊢
      cases hp : EasyConfiguration.setConfig1 s pk pv with
      | error e' =>
        rw [hp] at hpre
        simp at hpre
      | ok s' =>
        rw [hp] at hpre
        show (match EasyConfiguration.setConfig1 s pk pv with
          | Except.ok s2 =>
            EasyConfiguration.setConfigMany s2 (pre' ++ (k, v) :: post)
          | Except.error e2 => (s, some e2)) = (s₁, some e)
        rw [hp]
        exact ih s' s₁ k v post e hpre herr

/-- Witness for C5: starting from Scenario A, the bulk write
`{a: true, a2: 1, zzz: 0}` applies `a := true`, fails on the unknown key
`a2`, leaves the earlier write in effect and never attempts `zzz`. -/
theorem C5_witness :
    EasyConfiguration.setConfigMany exStoreA [("a", JSValue.vBool true)] =
      (exStoreA', none) ∧
    EasyConfiguration.setConfig1 exStoreA' "a2" (JSValue.vNum 1) =
      .error (.refErr (missingPropertyMsg "a2")) ∧
    EasyConfiguration.setConfigMany exStoreA
        ([("a", JSValue.vBool true)] ++
          ("a2", JSValue.vNum 1) :: [("zzz", JSValue.vNum 0)]) =
      (exStoreA', some (.refErr (missingPropertyMsg "a2"))) :=
  ⟨rfl, rfl,
    C5_bulk_propagation.2 [("a", JSValue.vBool true)] exStoreA exStoreA'
      "a2" (JSValue.vNum 1) [("zzz", JSValue.vNum 0)]
      (.refErr (missingPropertyMsg "a2")) rfl rfl⟩

/-- C3: for a known property whose write passes the type check, a
validator `f` decides the outcome: the write fails with a
ValidationError-kind error iff `f v` returns `false` without raising,
fails with an EvalError-kind error iff `f v` raises, and succeeds when
`f v` returns `true`; an absent validator admits every value. -/
theorem C3_validator_contract
    (s : AdvancedConfigurationManagement.Store) (n : String)
    (cur : AdvancedConfigurationManagement.Entry) (v : JSValue)
    (hmg : mapGet s n = some cur)
    (hty : cur.types.contains (typeOf v) = true) :
    (∀ f, cur.validator = some f →
      ((∃ m, AdvancedConfigurationManagement.setConfig1 s n v =
          .error (.validationErr m)) ↔ f v = .ok false) ∧
      ((∃ m, AdvancedConfigurationManagement.setConfig1 s n v =
          .error (.evalErr m)) ↔ f v = .error ()) ∧
      (f v = .ok true →
        ∃ s', AdvancedConfigurationManagement.setConfig1 s n v = .ok s')) ∧
    (cur.validator = none →
      ∃ s', AdvancedConfigurationManagement.setConfig1 s n v = .ok s') := by
  rw [acm_setConfig1_known s n v cur hmg, hty]
  simp only [Bool.not_true, Bool.false_eq_true, if_false]
  constructor
  · intro f hf
    rw [hf]
    unfold AdvancedConfigurationManagement.runValidator
    cases hfv : f v with
    | error u =>
      cases u
      simp [hfv]
    | ok b =>
      cases b with
      | false => simp [hfv]
      | true => simp [hfv]
  · intro hf
    rw [hf]
    unfold AdvancedConfigurationManagement.runValidator
    simp

/-- Witness for C3 at Scenario D: the length validator rejects the empty
string with a ValidationError-kind error and accepts `'baz'`. -/
theorem C3_witness :
    (mapGet exAcmStore "foo" =
        some { types := ["string"], value := JSValue.vStr "bar",
               validator := some exValidator } ∧
      exValidator (JSValue.vStr "") = .ok false ∧
      (∃ m, AdvancedConfigurationManagement.setConfig1 exAcmStore "foo"
          (JSValue.vStr "") = .error (.validationErr m))) ∧
    (exValidator (JSValue.vStr "baz") = .ok true ∧
      ∃ s', AdvancedConfigurationManagement.setConfig1 exAcmStore "foo"
        (JSValue.vStr "baz") = .ok s') := by
  constructor
  · refine ⟨rfl, rfl, ?_⟩
    exact ((C3_validator_contract exAcmStore "foo"
      { types := ["string"], value := JSValue.vStr "bar",
        validator := some exValidator } (JSValue.vStr "") rfl rfl).1
      exValidator rfl).1.mpr rfl
  · refine ⟨rfl, ?_⟩
    exact ((C3_validator_contract exAcmStore "foo"
      { types := ["string"], value := JSValue.vStr "bar",
        validator := some exValidator } (JSValue.vStr "baz") rfl rfl).1
      exValidator rfl).2.2 rfl

/-- A key that maps to a value is a member of the association list. -/
theorem mem_of_mapGet {α : Type} {m : List (String × α)} {k : String}
    {v : α} (h : mapGet m k = some v) : (k, v) ∈ m := by
  induction m with
  | nil => simp [mapGet] at h
  | cons p rest ih =>
    obtain ⟨a, b⟩ := p
    by_cases ha : a = k
    · subst ha
      have hb : b = v := by simpa [mapGet] using h
      subst hb
      exact List.mem_cons_self _ _
    · simp only [mapGet, if_neg ha] at h
      exact List.mem_cons_of_mem _ (ih h)

/-- Every property of a snapshot built by `getConfigAll` is a bare
descriptor: non-writable, non-enumerable, non-configurable. -/
theorem getConfigAll_bare (s : EasyConfiguration.Store) :
    ∀ p ∈ EasyConfiguration.getConfigAll s,
      p.2.writable = false ∧ p.2.enumerable = false ∧
        p.2.configurable = false := by
  intro p hp
  rcases mem_defineFold EasyConfiguration.Entry.value s.entries [] hp with
    h | h
  · exact h
  · simp at h

/-- Reading the snapshot agrees with reading the store (unique keys). -/
theorem getConfigAll_get (s : EasyConfiguration.Store)
    (hn : KeysNodup s.entries) (k : String) :
    mapGet (EasyConfiguration.getConfigAll s) k =
      match mapGet s.entries k with
      | some e => some { value := e.value, writable := false,
                         enumerable := false, configurable := false }
      | none => none := by
  have h := defineFold_get EasyConfiguration.Entry.value s.entries [] k hn
  cases hke : mapGet s.entries k with
  | some e => rw [hke] at h; exact h
  | none => rw [hke] at h; exact h

/-- C10: the zero-argument `getConfig` snapshot defines every property via
a bare `{ value }` descriptor, so each property is non-writable,
non-enumerable and non-configurable: assigning to an existing snapshot
property has no effect, enumerating the snapshot yields no keys, yet each
stored property is retrievable by direct named access. -/
theorem C10_snapshot_bare_descriptors
    (s : EasyConfiguration.Store) (hn : KeysNodup s.entries) :
    (∀ p ∈ EasyConfiguration.getConfigAll s,
      p.2.writable = false ∧ p.2.enumerable = false ∧
        p.2.configurable = false) ∧
    (∀ k v, (mapGet (EasyConfiguration.getConfigAll s) k).isSome →
      assignProp (EasyConfiguration.getConfigAll s) k v =
        EasyConfiguration.getConfigAll s) ∧
    objectKeys (EasyConfiguration.getConfigAll s) = [] ∧
    (∀ k e, mapGet s.entries k = some e →
      getProp (EasyConfiguration.getConfigAll s) k = some e.value) := by
  refine ⟨getConfigAll_bare s, ?_, ?_, ?_⟩
  · intro k v hk
    cases hd : mapGet (EasyConfiguration.getConfigAll s) k with
    | none => rw [hd] at hk; simp at hk
    | some d =>
      have hw : d.writable = false :=
        (getConfigAll_bare s (k, d) (mem_of_mapGet hd)).1
      unfold assignProp
      rw [hd]
      simp [hw]
  · unfold objectKeys
    rw [List.filter_eq_nil_iff.mpr]
    · simp
    · intro p hp
      simp [(getConfigAll_bare s p hp).2.1]
  · intro k e hke
    unfold getProp
    rw [getConfigAll_get s hn k, hke]
    rfl

/-- Witness for C10 at the Scenario A store: the snapshot's only property
`a` is a bare descriptor, assignment to it is a no-op, `Object.keys` is
empty, and direct access reads `false`. -/
theorem C10_witness :
    KeysNodup exStoreA.entries ∧
    assignProp (EasyConfiguration.getConfigAll exStoreA) "a"
        (JSValue.vBool true) =
      EasyConfiguration.getConfigAll exStoreA ∧
    objectKeys (EasyConfiguration.getConfigAll exStoreA) = [] ∧
    getProp (EasyConfiguration.getConfigAll exStoreA) "a" =
      some (JSValue.vBool false) := by
  have h := C10_snapshot_bare_descriptors exStoreA (by decide)
  exact ⟨by decide, h.2.1 "a" (JSValue.vBool true) (by rfl), h.2.2.1,
    h.2.2.2 "a" _ rfl⟩

/-- C9: without intervening writes, two zero-argument `getConfig` calls
yield identical snapshots (in the pure model the snapshot is a function of
the store state alone); the snapshot is a defensive copy built from bare
descriptors, so assigning to its properties never changes it (and the
store, a separate value, is untouched); and a later successful write
changes the new snapshot while the previously returned snapshot still
carries the old value. -/
theorem C9_snapshot_idempotent_defensive
    (s : EasyConfiguration.Store) (n : String) (e : EasyConfiguration.Entry)
    (v : JSValue) (s' : EasyConfiguration.Store)
    (hn : KeysNodup s.entries)
    (hmg : mapGet s.entries n = some e)
    (hset : EasyConfiguration.setConfig1 s n v = .ok s') :
    EasyConfiguration.getConfigAll s = EasyConfiguration.getConfigAll s ∧
    (∀ k w, (mapGet (EasyConfiguration.getConfigAll s) k).isSome →
      assignProp (EasyConfiguration.getConfigAll s) k w =
        EasyConfiguration.getConfigAll s) ∧
    getProp (EasyConfiguration.getConfigAll s) n = some e.value ∧
    getProp (EasyConfiguration.getConfigAll s') n = some v := by
  rw [easy_setConfig1_known s n v e hmg] at hset
  cases hc : e.types.contains (typeOf v) with
  | false => rw [hc] at hset; simp at hset
  | true =>
    rw [hc] at hset
    simp only [Bool.not_true, Bool.false_eq_true, if_false,
      Except.ok.injEq] at hset
    subst hset
    have hn' : KeysNodup (mapSet s.entries n { e with value := v }) := by
      unfold KeysNodup
      rw [mapKeys_mapSet_of_mem _ (by simp [hmg])]
      exact hn
    refine ⟨rfl, ?_, ?_, ?_⟩
    · intro k w hk
      cases hd : mapGet (EasyConfiguration.getConfigAll s) k with
      | none => rw [hd] at hk; simp at hk
      | some d =>
        have hw : d.writable = false :=
          (getConfigAll_bare s (k, d) (mem_of_mapGet hd)).1
        unfold assignProp
        rw [hd]
        simp [hw]
    · unfold getProp
      rw [getConfigAll_get s hn n, hmg]
      rfl
    · unfold getProp
      show (mapGet (EasyConfiguration.getConfigAll
        { s with entries := mapSet s.entries n { e with value := v } })
          n).map PropDescriptor.value = some v
      rw [getConfigAll_get
        { s with entries := mapSet s.entries n { e with value := v } } hn' n,
        mapGet_mapSet_self]
      rfl

/-- Witness for C9 at Scenario A: the snapshot before the write reads
`false` at `a`, assigning to it is a no-op, and after the successful
write the old snapshot value is unchanged while the new snapshot reads
`true`. -/
theorem C9_witness :
    KeysNodup exStoreA.entries ∧
    mapGet exStoreA.entries "a" =
      some { types := ["boolean"], default := JSValue.vBool false,
             value := JSValue.vBool false } ∧
    EasyConfiguration.setConfig1 exStoreA "a" (JSValue.vBool true) =
      .ok exStoreA' ∧
    getProp (EasyConfiguration.getConfigAll exStoreA) "a" =
      some (JSValue.vBool false) ∧
    getProp (EasyConfiguration.getConfigAll exStoreA') "a" =
      some (JSValue.vBool true) := by
  have h := C9_snapshot_idempotent_defensive exStoreA "a"
    { types := ["boolean"], default := JSValue.vBool false,
      value := JSValue.vBool false }
    (JSValue.vBool true) exStoreA' (by decide) rfl (by rfl)
  exact ⟨by decide, rfl, by rfl, h.2.2.1, h.2.2.2⟩

/-- A specification item whose explicit `types` (if any) is non-empty
normalises to an entry with non-empty `types`. -/
theorem normalizeItem_types_nonEmpty (item : EasyConfiguration.SpecItem)
    (h : ∀ d ts, item = .desc d → d.types = some ts → ts ≠ []) :
    (EasyConfiguration.normalizeItem item).types ≠ [] := by
  cases item with
  | raw v => simp [EasyConfiguration.normalizeItem]
  | desc d =>
    cases hdt : d.types with
    | none => simp [EasyConfiguration.normalizeItem, hdt]
    | some ts =>
      simp only [EasyConfiguration.normalizeItem, hdt]
      exact h d ts rfl hdt

/-- Folding normalised items over an invariant-satisfying accumulator
preserves the non-empty-`types` invariant. -/
theorem foldl_normalize_types_nonEmpty
    (spec : List (String × EasyConfiguration.SpecItem))
    (hspec : ∀ q ∈ spec, (EasyConfiguration.normalizeItem q.2).types ≠ []) :
    ∀ (acc : List (String × EasyConfiguration.Entry)),
      (∀ p ∈ acc, p.2.types ≠ []) →
      ∀ p ∈ spec.foldl
        (fun m q => mapSet m q.1 (EasyConfiguration.normalizeItem q.2)) acc,
        p.2.types ≠ [] := by
  induction spec with
  | nil => intro acc hacc p hp; exact hacc p hp
  | cons q rest ih =>
    intro acc hacc p hp
    refine ih (fun r hr => hspec r (List.mem_cons_of_mem _ hr)) _ ?_ p hp
    intro r hr
    rcases mem_mapSet hr with h1 | h1
    · rw [h1]
      exact hspec q (List.mem_cons_self _ _)
    · exact hacc r h1

/-- Construction under the non-empty-explicit-`types` proviso establishes
the invariant. -/
theorem construct_typesNonEmpty
    (spec : List (String × EasyConfiguration.SpecItem)) (b : Bool)
    (h : EasyConfiguration.explicitTypesNonEmpty spec) :
    EasyConfiguration.typesNonEmpty (EasyConfiguration.construct spec b) := by
  intro p hp
  refine foldl_normalize_types_nonEmpty spec ?_ [] (by simp) p hp
  intro q hq
  exact normalizeItem_types_nonEmpty q.2 (fun d ts hd hts => h q hq d ts hd hts)

/-- A successful single-property write preserves the invariant. -/
theorem setConfig1_typesNonEmpty
    (s : EasyConfiguration.Store) (k : String) (v : JSValue)
    (s' : EasyConfiguration.Store)
    (hs : EasyConfiguration.typesNonEmpty s)
    (hset : EasyConfiguration.setConfig1 s k v = .ok s') :
    EasyConfiguration.typesNonEmpty s' := by
  cases hmg : mapGet s.entries k with
  | none =>
    rw [easy_setConfig1_unknown s k v hmg] at hset
    cases ha : s.addAllowed with
    | false => rw [ha] at hset; simp at hset
    | true =>
      rw [ha] at hset
      simp only [Bool.not_true, Bool.false_eq_true, if_false,
        Except.ok.injEq] at hset
      subst hset
      intro p hp
      rcases mem_mapSet hp with h1 | h1
      · rw [h1]; simp
      · exact hs p h1
  | some cur =>
    rw [easy_setConfig1_known s k v cur hmg] at hset
    cases hc : cur.types.contains (typeOf v) with
    | false => rw [hc] at hset; simp at hset
    | true =>
      rw [hc] at hset
      simp only [Bool.not_true, Bool.false_eq_true, if_false,
        Except.ok.injEq] at hset
      subst hset
      intro p hp
      rcases mem_mapSet hp with h1 | h1
      · rw [h1]
        exact hs (k, cur) (mem_of_mapGet hmg)
      · exact hs p h1

/-- Bulk writes preserve the invariant on the state they leave behind. -/
theorem setConfigMany_typesNonEmpty
    (pairs : List (String × JSValue)) :
    ∀ (s : EasyConfiguration.Store), EasyConfiguration.typesNonEmpty s →
      EasyConfiguration.typesNonEmpty
        (EasyConfiguration.setConfigMany s pairs).1 := by
  induction pairs with
  | nil => intro s hs; exact hs
  | cons p rest ih =>
    intro s hs
    obtain ⟨pk, pv⟩ := p
    show EasyConfiguration.typesNonEmpty
      (EasyConfiguration.setConfigMany s ((pk, pv) :: rest)).1
    unfold EasyConfiguration.setConfigMany
    cases hp : EasyConfiguration.setConfig1 s pk pv with
    | error e => exact hs
    | ok s' => exact ih s' (setConfig1_typesNonEmpty s pk pv s' hs hp)

/-- Any single operation preserves the invariant. -/
theorem applyOp_typesNonEmpty (s : EasyConfiguration.Store) (op : EasyOp)
    (hs : EasyConfiguration.typesNonEmpty s) :
    EasyConfiguration.typesNonEmpty (EasyConfiguration.applyOp s op) := by
  cases op with
  | set1 k v =>
    show EasyConfiguration.typesNonEmpty
      (match EasyConfiguration.setConfig1 s k v with
        | .ok s' => s'
        | .error _ => s)
    cases hp : EasyConfiguration.setConfig1 s k v with
    | error e => exact hs
    | ok s' => exact setConfig1_typesNonEmpty s k v s' hs hp
  | setMany ps => exact setConfigMany_typesNonEmpty ps s hs
  | get k => exact hs

/-- Any sequence of operations preserves the invariant. -/
theorem runOps_typesNonEmpty (ops : List EasyOp) :
    ∀ (s : EasyConfiguration.Store), EasyConfiguration.typesNonEmpty s →
      EasyConfiguration.typesNonEmpty (EasyConfiguration.runOps s ops) := by
  induction ops with
  | nil => intro s hs; exact hs
  | cons op rest ih =>
    intro s hs
    exact ih _ (applyOp_typesNonEmpty s op hs)

/-- An accepted types check yields a non-empty list: an accepted explicit
array contains `typeof value`, and the inferred fallback is a
singleton. -/
theorem checkTypes_ok_nonEmpty
    (d : AdvancedConfigurationManagement.Descriptor) (ts : List String)
    (h : AdvancedConfigurationManagement.checkTypes d = .ok ts) :
    ts ≠ [] := by
  unfold AdvancedConfigurationManagement.checkTypes at h
  cases ht : truthy d.types with
  | false =>
    simp only [ht, Bool.false_eq_true, if_false, Except.ok.injEq] at h
    subst h
    simp
  | true =>
    simp only [ht, if_true] at h
    cases hsa : AdvancedConfigurationManagement.stringArray? d.types with
    | none => simp [hsa] at h
    | some ts' =>
      simp only [hsa] at h
      cases hc : ts'.contains (typeOf d.value) with
      | false =>
        rw [hc] at h
        simp at h
      | true =>
        rw [hc] at h
        simp only [Bool.not_true, Bool.false_eq_true, if_false,
          Except.ok.injEq] at h
        subst h
        intro hnil
        rw [hnil] at hc
        simp at hc

/-- A successfully normalised strict-variant descriptor yields an entry
with non-empty `types`. -/
theorem mkEntry_types_nonEmpty
    (d : AdvancedConfigurationManagement.Descriptor)
    (e : AdvancedConfigurationManagement.Entry)
    (h : AdvancedConfigurationManagement.mkEntry d = .ok e) :
    e.types ≠ [] := by
  unfold AdvancedConfigurationManagement.mkEntry at h
  cases hct : AdvancedConfigurationManagement.checkTypes d with
  | error er => simp [hct] at h
  | ok ts =>
    simp only [hct] at h
    cases hcv : AdvancedConfigurationManagement.checkValidator d with
    | error er => simp [hcv] at h
    | ok ov =>
      simp only [hcv, Except.ok.injEq] at h
      subst h
      exact checkTypes_ok_nonEmpty d ts hct

/-- The strict constructor loop only produces invariant-satisfying
stores. -/
theorem constructAux_typesNonEmpty
    (spec : List (String × AdvancedConfigurationManagement.Descriptor)) :
    ∀ (acc : AdvancedConfigurationManagement.Store)
      (st : AdvancedConfigurationManagement.Store),
      AdvancedConfigurationManagement.typesNonEmpty acc →
      AdvancedConfigurationManagement.constructAux acc spec = .ok st →
      AdvancedConfigurationManagement.typesNonEmpty st := by
  induction spec with
  | nil =>
    intro acc st hacc h
    unfold AdvancedConfigurationManagement.constructAux at h
    simp only [Except.ok.injEq] at h
    subst h
    exact hacc
  | cons q rest ih =>
    intro acc st hacc h
    obtain ⟨qk, qd⟩ := q
    unfold AdvancedConfigurationManagement.constructAux at h
    cases hm : AdvancedConfigurationManagement.mkEntry qd with
    | error e => rw [hm] at h; simp at h
    | ok entry =>
      rw [hm] at h
      refine ih _ st ?_ h
      intro p hp
      rcases mem_mapSet hp with h1 | h1
      · rw [h1]
        exact mkEntry_types_nonEmpty qd entry hm
      · exact hacc p h1

/-- Counterexample for C7: constructing `EasyConfiguration` from
`{a: {value: 1, types: []}}` — an explicitly supplied EMPTY `types`
array — stores the empty array verbatim, so the claimed invariant fails
right after construction. -/
theorem C7_counterexample :
    ¬ EasyConfiguration.typesNonEmpty
        (EasyConfiguration.construct cexEmptyTypesSpec false) := by
  intro h
  have hm : (("a" : String),
      ({ types := [], default := JSValue.vNum 1, value := JSValue.vNum 1 } :
        EasyConfiguration.Entry)) ∈
      (EasyConfiguration.construct cexEmptyTypesSpec false).entries := by
    show _ ∈ [("a",
      ({ types := [], default := JSValue.vNum 1, value := JSValue.vNum 1 } :
        EasyConfiguration.Entry))]
    exact List.mem_singleton.mpr rfl
  exact h _ hm rfl

/-- C7 (amended): the non-empty-`types` invariant holds for every
reachable `EasyConfiguration` state PROVIDED every explicitly supplied
`types` array at construction is non-empty (an explicit empty array is
stored verbatim and breaks it); in the validator-aware strict variant no
proviso is needed: successful construction by itself guarantees the
invariant. -/
theorem C7_types_nonEmpty_amended :
    (∀ (spec : List (String × EasyConfiguration.SpecItem))
       (addAllowed : Bool) (ops : List EasyOp),
      EasyConfiguration.explicitTypesNonEmpty spec →
      EasyConfiguration.typesNonEmpty
        (EasyConfiguration.runOps
          (EasyConfiguration.construct spec addAllowed) ops)) ∧
    (∀ (spec : List (String × AdvancedConfigurationManagement.Descriptor))
       (st : AdvancedConfigurationManagement.Store),
      AdvancedConfigurationManagement.construct spec = .ok st →
      AdvancedConfigurationManagement.typesNonEmpty st) := by
  constructor
  · intro spec addAllowed ops h
    exact runOps_typesNonEmpty ops _ (construct_typesNonEmpty spec addAllowed h)
  · intro spec st h
    exact constructAux_typesNonEmpty spec [] st (by simp
      [AdvancedConfigurationManagement.typesNonEmpty]) h

/-- Witness for C7 (amended): the Scenario A store keeps non-empty
`types` through a successful write and a failing one, and the strict
variant's Scenario D store satisfies the invariant after construction. -/
theorem C7_witness :
    EasyConfiguration.typesNonEmpty
      (EasyConfiguration.runOps
        (EasyConfiguration.construct
          [("a", EasyConfiguration.SpecItem.raw (JSValue.vBool false))] false)
        [EasyOp.set1 "a" (JSValue.vBool true),
         EasyOp.set1 "a" (JSValue.vNum 2)]) ∧
    AdvancedConfigurationManagement.typesNonEmpty exAcmStoreNoVal := by
  constructor
  · refine C7_types_nonEmpty_amended.1 _ false _ ?_
    intro p hp d ts hd hts
    simp only [List.mem_singleton] at hp
    subst hp
    exact absurd hd (by intro hh; exact EasyConfiguration.SpecItem.noConfusion hh)
  · refine C7_types_nonEmpty_amended.2
      [("foo", { value := JSValue.vStr "bar",
                 types := JSValue.vArr [JSValue.vStr "string"] })]
      exAcmStoreNoVal ?_
    rfl

/-- The types check fails exactly on a truthy `types` that is not an
array of strings or does not contain `typeof value`. -/
theorem checkTypes_error_iff
    (d : AdvancedConfigurationManagement.Descriptor) :
    (∃ e, AdvancedConfigurationManagement.checkTypes d = .error e) ↔
      (truthy d.types = true ∧
        (AdvancedConfigurationManagement.stringArray? d.types = none ∨
          ∃ ts, AdvancedConfigurationManagement.stringArray? d.types =
              some ts ∧
            ts.contains (typeOf d.value) = false)) := by
  unfold AdvancedConfigurationManagement.checkTypes
  cases ht : truthy d.types with
  | false => simp [ht]
  | true =>
    simp only [ht, if_true, true_and]
    cases hsa : AdvancedConfigurationManagement.stringArray? d.types with
    | none => simp [hsa]
    | some ts =>
      simp only [hsa]
      cases hc : ts.contains (typeOf d.value) with
      | false =>
        have hmem : typeOf d.value ∉ ts := by simpa using hc
        simp [hc, hmem]
      | true =>
        have hmem : typeOf d.value ∈ ts := by simpa using hc
        simp [hc, hmem]

/-- The validator check fails exactly on a truthy non-callable
`validator`. -/
theorem checkValidator_error_iff
    (d : AdvancedConfigurationManagement.Descriptor) :
    (∃ e, AdvancedConfigurationManagement.checkValidator d = .error e) ↔
      (d.validator.isTruthy = true ∧
        d.validator.isCallable = false) := by
  unfold AdvancedConfigurationManagement.checkValidator
  cases hv : d.validator with
  | fn f =>
    simp [hv, AdvancedConfigurationManagement.ValidatorField.isTruthy,
      AdvancedConfigurationManagement.ValidatorField.isCallable]
  | val w =>
    cases htw : truthy w with
    | false =>
      simp [hv, AdvancedConfigurationManagement.ValidatorField.isTruthy, htw]
    | true =>
      simp [hv, AdvancedConfigurationManagement.ValidatorField.isTruthy,
        AdvancedConfigurationManagement.ValidatorField.isCallable, htw]

/-- `mkEntry` fails exactly when one of its two checks fails. -/
theorem mkEntry_error_iff_checks
    (d : AdvancedConfigurationManagement.Descriptor) :
    (∃ e, AdvancedConfigurationManagement.mkEntry d = .error e) ↔
      ((∃ e, AdvancedConfigurationManagement.checkTypes d = .error e) ∨
        (∃ e, AdvancedConfigurationManagement.checkValidator d =
          .error e)) := by
  unfold AdvancedConfigurationManagement.mkEntry
  cases hct : AdvancedConfigurationManagement.checkTypes d with
  | error e => simp [hct]
  | ok ts =>
    simp only [hct]
    cases hcv : AdvancedConfigurationManagement.checkValidator d with
    | error e => simp [hcv]
    | ok ov => simp [hcv]

/-- `mkEntry` fails exactly on a rejected descriptor. -/
theorem mkEntry_error_iff
    (d : AdvancedConfigurationManagement.Descriptor) :
    (∃ e, AdvancedConfigurationManagement.mkEntry d = .error e) ↔
      AdvancedConfigurationManagement.descriptorRejected d := by
  rw [mkEntry_error_iff_checks]
  unfold AdvancedConfigurationManagement.descriptorRejected
  exact or_congr (checkTypes_error_iff d) (checkValidator_error_iff d)

/-- The constructor loop fails exactly when some descriptor of the
specification is rejected. -/
theorem constructAux_error_iff
    (spec : List (String × AdvancedConfigurationManagement.Descriptor)) :
    ∀ (acc : AdvancedConfigurationManagement.Store),
      (∃ e, AdvancedConfigurationManagement.constructAux acc spec =
        .error e) ↔
      ∃ p ∈ spec, AdvancedConfigurationManagement.descriptorRejected p.2 := by
  induction spec with
  | nil =>
    intro acc
    simp [AdvancedConfigurationManagement.constructAux]
  | cons q rest ih =>
    intro acc
    obtain ⟨qk, qd⟩ := q
    unfold AdvancedConfigurationManagement.constructAux
    cases hm : AdvancedConfigurationManagement.mkEntry qd with
    | error e =>
      simp only [hm]
      constructor
      · intro _
        exact ⟨(qk, qd), List.mem_cons_self _ _,
          (mkEntry_error_iff qd).mp ⟨e, hm⟩⟩
      · intro _
        exact ⟨e, rfl⟩
    | ok entry =>
      simp only [hm]
      rw [ih (mapSet acc qk entry)]
      constructor
      · rintro ⟨p, hp, hr⟩
        exact ⟨p, List.mem_cons_of_mem _ hp, hr⟩
      · rintro ⟨p, hp, hr⟩
        rcases List.mem_cons.mp hp with h1 | h1
        · exfalso
          subst h1
          rcases (mkEntry_error_iff qd).mpr hr with ⟨e, he⟩
          rw [hm] at he
          exact Except.noConfusion he
        · exact ⟨p, h1, hr⟩

/-- A successful constructor run seeds exactly the accumulator's keys
plus one entry per specification key. -/
theorem constructAux_keys
    (spec : List (String × AdvancedConfigurationManagement.Descriptor)) :
    ∀ (acc st : AdvancedConfigurationManagement.Store),
      AdvancedConfigurationManagement.constructAux acc spec = .ok st →
      ∀ k, (mapGet st k).isSome ↔
        ((mapGet acc k).isSome ∨ ∃ d, (k, d) ∈ spec) := by
  induction spec with
  | nil =>
    intro acc st h k
    unfold AdvancedConfigurationManagement.constructAux at h
    simp only [Except.ok.injEq] at h
    subst h
    simp
  | cons q rest ih =>
    intro acc st h k
    obtain ⟨qk, qd⟩ := q
    unfold AdvancedConfigurationManagement.constructAux at h
    cases hm : AdvancedConfigurationManagement.mkEntry qd with
    | error e => rw [hm] at h; simp at h
    | ok entry =>
      rw [hm] at h
      rw [ih _ st h k]
      by_cases hk : qk = k
      · subst hk
        rw [mapGet_mapSet_self]
        simp only [Option.isSome_some, true_or, true_iff]
        exact Or.inr ⟨qd, List.mem_cons_self _ _⟩
      · rw [mapGet_mapSet_ne acc qk k entry (fun hh => hk hh.symm)]
        constructor
        · rintro (h1 | ⟨d, hd⟩)
          · exact Or.inl h1
          · exact Or.inr ⟨d, List.mem_cons_of_mem _ hd⟩
        · rintro (h1 | ⟨d, hd⟩)
          · exact Or.inl h1
          · rcases List.mem_cons.mp hd with h2 | h2
            · exfalso
              exact hk (congrArg Prod.fst h2).symm
            · exact Or.inr ⟨d, h2⟩

/-- Counterexample for C8: the descriptor `{value: 1, types: false}` has a
`types` field that is PRESENT but not an array of strings — malformed in
the claim's sense — yet construction succeeds, because the code only
checks a TRUTHY `types` field and `false` is falsy. -/
theorem C8_counterexample :
    AdvancedConfigurationManagement.descriptorMalformedClaim cexDescC8 ∧
    AdvancedConfigurationManagement.construct [("a", cexDescC8)] =
      .ok [("a", { types := ["number"], value := JSValue.vNum 1,
                   validator := none })] := by
  constructor
  · left
    constructor
    · intro h
      exact JSValue.noConfusion h
    · left
      rfl
  · rfl

/-- C8 (amended): construction of the validator-aware variant fails with
a SetupError-kind error iff some descriptor has a TRUTHY `types` field
that is not an array of strings or is an array not containing the kind of
the descriptor's value, or a TRUTHY non-callable `validator` field (falsy
fields are treated as absent); otherwise construction succeeds, seeding
exactly one entry per specification key. -/
theorem C8_setup_validation_amended
    (spec : List (String × AdvancedConfigurationManagement.Descriptor)) :
    ((∃ e, AdvancedConfigurationManagement.construct spec = .error e) ↔
      ∃ p ∈ spec,
        AdvancedConfigurationManagement.descriptorRejected p.2) ∧
    (∀ st, AdvancedConfigurationManagement.construct spec = .ok st →
      ∀ k, (mapGet st k).isSome ↔ ∃ d, (k, d) ∈ spec) := by
  constructor
  · exact constructAux_error_iff spec []
  · intro st h k
    rw [constructAux_keys spec [] st h k]
    simp [mapGet]

/-- Witness for C8 (amended): a truthy non-array `types` (the string
`'string'`) is rejected at construction, while the falsy-`types`
descriptor is accepted and seeds exactly its one key. -/
theorem C8_witness :
    (∃ e, AdvancedConfigurationManagement.construct
      [("a", { value := JSValue.vNum 1, types := JSValue.vStr "string" })] =
        .error e) ∧
    ((mapGet
      ([("a", { types := ["number"], value := JSValue.vNum 1, validator := none })] :
        AdvancedConfigurationManagement.Store) "a").isSome = true) := by
  constructor
  · refine (C8_setup_validation_amended
      [("a", { value := JSValue.vNum 1, types := JSValue.vStr "string" })]).1.mpr ?_
    refine ⟨_, List.mem_cons_self _ _, Or.inl ⟨rfl, Or.inl rfl⟩⟩
  · refine ((C8_setup_validation_amended [("a", cexDescC8)]).2
      [("a", { types := ["number"], value := JSValue.vNum 1, validator := none })]
      rfl "a").mpr ?_
    exact ⟨cexDescC8, List.mem_cons_self _ _⟩
